import Mathlib

/-!
# Verification of the claude-eyes Session & Observation State Manager

A shallow embedding, in Lean 4, of the session/observation core of the
claude-eyes repository (`src/session/manager.ts`, `src/tools/network.ts`,
`src/tools/qa.ts`, `src/tools/dom.ts`, `src/tools/visual.ts`) together with
proofs settling the specification claims about it.

Conventions used throughout:
* JS numbers that are in fact integers (timestamps, status codes, counts) are
  modelled as `Nat`/`Int`; the one place where JS float arithmetic appears
  (the visual-diff percentage) is modelled exactly over `ℚ`, with the
  `0/0 → NaN` case modelled as `none`.
* JS objects are modelled as structures; `undefined`-able fields as `Option`.
* Code that can throw is modelled in `Except String`.
* JS truthiness tests on numbers/strings (`if (filter?.since)`) are modelled
  by the corresponding explicit tests (`s ≠ 0`, `q ≠ ""`).
-/

/-! ## Basic data model (src/session/types.ts) -/

/-- Severity kinds of a console message (`ConsoleLogEntry['type']`). -/
inductive LogType
  | log | debug | info | error | warning | trace
deriving DecidableEq, Repr

/-- Source location of a console message. -/
structure LogLocation where
  url : String
  lineNumber : Nat
  columnNumber : Nat
deriving DecidableEq, Repr

/-- One captured console message (`ConsoleLogEntry`). -/
structure ConsoleLogEntry where
  type : LogType
  text : String
  timestamp : Nat
  location : Option LogLocation := none
deriving DecidableEq, Repr

/-- The response sub-record of a network exchange (`NetworkRequestEntry.response`). -/
structure NetworkResponse where
  status : Int
  statusText : String
  headers : List (String × String)
  body : Option String := none
deriving DecidableEq, Repr

/-- One captured network exchange (`NetworkRequestEntry`). -/
structure NetworkRequestEntry where
  id : String
  url : String
  method : String
  headers : List (String × String)
  postData : Option String := none
  resourceType : String
  timestamp : Nat
  duration : Option Int := none
  response : Option NetworkResponse := none
deriving DecidableEq, Repr

/-- Filter accepted by `SessionManager.getConsoleLogs` (`ConsoleFilter`). -/
structure ConsoleFilter where
  types : Option (List LogType) := none
  since : Option Nat := none
  search : Option String := none
deriving Repr

/-- Filter accepted by `SessionManager.getNetworkRequests` (`NetworkFilter`). -/
structure NetworkFilter where
  urlPattern : Option String := none
  methods : Option (List String) := none
  statusCodes : Option (List Int) := none
  failed : Option Bool := none
deriving Repr

/-! ## String helpers modelling JS string primitives -/

/-- Models JS `String.prototype.includes`: substring containment. -/
def strContains (s pat : String) : Bool :=
  (List.range (s.data.length + 1)).any
    (fun i => decide ((s.data.drop i).take pat.data.length = pat.data))

/-- Models JS `String.prototype.substring(0, n)` / truncation to `n` chars. -/
def strTake (s : String) (n : Nat) : String :=
  ⟨s.data.take n⟩

/-! ## A model of the ECMAScript `RegExp` platform primitive

The repository calls `new RegExp(p)` (which throws a `SyntaxError` on an
invalid pattern) and `regex.test(url)` (unanchored search).  We model the
core regex subset — literal characters, backslash escapes, `.`, grouping
`( )`, alternation `|`, and the quantifiers `*`, `+`, `?` — as an AST with a
Brzozowski-derivative matcher; character classes and braced quantifiers are
outside the modelled subset and are reported as compile errors.  What the
claims exercise is exactly the behaviour the model shares with ECMAScript:
compilation of an unbalanced `"("` fails. -/

inductive Reg
  | emp
  | eps
  | chr (c : Char)
  | anyChar
  | alt (r s : Reg)
  | cat (r s : Reg)
  | star (r : Reg)
deriving DecidableEq, Repr

/-- Whether `r` accepts the empty string. -/
def Reg.nullable : Reg → Bool
  | .emp => false
  | .eps => true
  | .chr _ => false
  | .anyChar => false
  | .alt r s => r.nullable || s.nullable
  | .cat r s => r.nullable && s.nullable
  | .star _ => true

/-- Brzozowski derivative of `r` by the character `d`.  JS `.` does not match
a line terminator. -/
def Reg.deriv : Reg → Char → Reg
  | .emp, _ => .emp
  | .eps, _ => .emp
  | .chr c, d => if c = d then .eps else .emp
  | .anyChar, d => if d = '\n' then .emp else .eps
  | .alt r s, d => .alt (r.deriv d) (s.deriv d)
  | .cat r s, d =>
      if r.nullable then .alt (.cat (r.deriv d) s) (s.deriv d) else .cat (r.deriv d) s
  | .star r, d => .cat (r.deriv d) (.star r)

/-- Does `r` match some prefix of `cs`? -/
def Reg.matchesPrefix : Reg → List Char → Bool
  | r, [] => r.nullable
  | r, c :: cs => r.nullable || (r.deriv c).matchesPrefix cs

/-- Models `regex.test(s)`: does `r` match a substring of `s` (unanchored)? -/
def regexTest (r : Reg) (s : String) : Bool :=
  (List.range (s.data.length + 1)).any (fun i => r.matchesPrefix (s.data.drop i))

mutual

/-- Parse an alternation (`a|b|c`). -/
def parseAlt : Nat → List Char → Except String (Reg × List Char)
  | 0, _ => .error "Invalid regular expression: pattern too deeply nested"
  | fuel + 1, cs => do
    let (t, rest) ← parseSeq fuel cs
    match rest with
    | '|' :: rest2 => do
        let (u, rest3) ← parseAlt fuel rest2
        pure (.alt t u, rest3)
    | _ => pure (t, rest)

/-- Parse a (possibly empty) concatenation of quantified atoms. -/
def parseSeq : Nat → List Char → Except String (Reg × List Char)
  | 0, _ => .error "Invalid regular expression: pattern too deeply nested"
  | fuel + 1, cs =>
    match cs with
    | [] => pure (.eps, [])
    | ')' :: _ => pure (.eps, cs)
    | '|' :: _ => pure (.eps, cs)
    | _ => do
      let (a, rest) ← parseFactor fuel cs
      let (b, rest2) ← parseSeq fuel rest
      pure (.cat a b, rest2)

/-- Parse an atom with an optional `*`, `+` or `?` quantifier. -/
def parseFactor : Nat → List Char → Except String (Reg × List Char)
  | 0, _ => .error "Invalid regular expression: pattern too deeply nested"
  | fuel + 1, cs => do
    let (a, rest) ← parseAtom fuel cs
    match rest with
    | '*' :: r => pure (.star a, r)
    | '+' :: r => pure (.cat a (.star a), r)
    | '?' :: r => pure (.alt a .eps, r)
    | _ => pure (a, rest)

/-- Parse a single atom: a group, an escape, `.`, or a literal character. -/
def parseAtom : Nat → List Char → Except String (Reg × List Char)
  | 0, _ => .error "Invalid regular expression: pattern too deeply nested"
  | fuel + 1, cs =>
    match cs with
    | [] => .error "Invalid regular expression: unexpected end of pattern"
    | '(' :: rest => do
        let (a, rest2) ← parseAlt fuel rest
        match rest2 with
        | ')' :: rest3 => pure (a, rest3)
        | _ => .error "Invalid regular expression: unterminated group"
    | ')' :: _ => .error "Invalid regular expression: unmatched )"
    | '*' :: _ => .error "Invalid regular expression: nothing to repeat"
    | '+' :: _ => .error "Invalid regular expression: nothing to repeat"
    | '?' :: _ => .error "Invalid regular expression: nothing to repeat"
    | '[' :: _ => .error "Invalid regular expression: character class outside modelled subset"
    | '\\' :: c :: rest => pure (.chr c, rest)
    | '\\' :: [] => .error "Invalid regular expression: \\ at end of pattern"
    | '.' :: rest => pure (.anyChar, rest)
    | c :: rest => pure (.chr c, rest)

end

/-- Models `new RegExp(p)`: compile a pattern or fail as the `RegExp`
constructor does on a syntax error. -/
def compileRegExp (p : String) : Except String Reg := do
  let (r, rest) ← parseAlt (2 * p.data.length + 4) p.data
  match rest with
  | [] => pure r
  | _ => .error "Invalid regular expression: unmatched )"

/-! ## SessionManager query functions (src/session/manager.ts) -/

namespace SessionManager

/-- Embedding of `SessionManager.getConsoleLogs` (manager.ts, lines 130-147):
the three filter passes over a spread copy of the history.  JS truthiness of
`filter?.since` (skipped for `0`) and `filter?.search` (skipped for `""`) is
made explicit. -/
def getConsoleLogs (filter : ConsoleFilter) (consoleLogs : List ConsoleLogEntry) :
    List ConsoleLogEntry :=
  let logs := consoleLogs
  let logs :=
    match filter.types with
    | some ts => if ts.length > 0 then logs.filter (fun log => ts.contains log.type) else logs
    | none => logs
  let logs :=
    match filter.since with
    | some s => if s ≠ 0 then logs.filter (fun log => decide (log.timestamp ≥ s)) else logs
    | none => logs
  let logs :=
    match filter.search with
    | some q =>
        if q ≠ "" then
          let searchLower := q.toLower
          logs.filter (fun log => strContains log.text.toLower searchLower)
        else logs
    | none => logs
  logs

/-- Embedding of `SessionManager.getNetworkRequests` (manager.ts, lines
153-179).  `new RegExp(filter.urlPattern)` can throw, and the function has no
handler for that, so the result lives in `Except String`. -/
def getNetworkRequests (filter : NetworkFilter) (networkRequests : List NetworkRequestEntry) :
    Except String (List NetworkRequestEntry) := do
  let requests := networkRequests
  let requests ←
    match filter.urlPattern with
    | some p =>
        if p ≠ "" then do
          let regex ← compileRegExp p
          pure (requests.filter (fun r => regexTest regex r.url))
        else pure requests
    | none => pure requests
  let requests :=
    match filter.methods with
    | some ms =>
        if ms.length > 0 then
          let methodsUpper := ms.map String.toUpper
          requests.filter (fun r => methodsUpper.contains r.method)
        else requests
    | none => requests
  let requests :=
    match filter.statusCodes with
    | some cs =>
        if cs.length > 0 then
          requests.filter (fun r =>
            match r.response with
            | some resp => cs.contains resp.status
            | none => false)
        else requests
    | none => requests
  let requests :=
    match filter.failed with
    | some true =>
        requests.filter (fun r =>
          match r.response with
          | some resp => decide (resp.status ≥ 400)
          | none => true)
    | _ => requests
  pure requests

end SessionManager

/-! ## The Event Capture Subsystem (src/session/manager.ts, attachListeners)

The three listeners attached in `SessionManager.attachListeners` (lines
58-104) are modelled as a step function over the pair of histories.  Each
browser event carries the data the listener reads off the engine objects
(`msg.type()`, `request.url()`, `response.status()`, `Date.now()`, the result
of `response.text()` …); each event's handler is processed as one atomic
step, in arrival order. -/

/-- The observation state: the two append-only histories. -/
structure ObsState where
  consoleLogs : List ConsoleLogEntry := []
  networkRequests : List NetworkRequestEntry := []
deriving DecidableEq, Repr

/-- Data carried by an `'on request'` event (read off the Playwright
`Request` object, plus the generated id and `Date.now()`). -/
structure RequestInfo where
  id : String
  url : String
  method : String
  headers : List (String × String)
  postData : Option String := none
  resourceType : String
deriving DecidableEq, Repr

/-- Data carried by an `'on response'` event: the fields the handler reads
off the Playwright `Response`, with `bodyText` the result of
`response.text()` (`none` when the read throws). -/
structure ResponseInfo where
  url : String
  method : String
  status : Int
  statusText : String
  headers : List (String × String)
  bodyText : Option String := none
deriving DecidableEq, Repr

/-- One browser event delivered to a capture listener; `now` is the value of
`Date.now()` when the handler runs. -/
inductive PageEvent
  | consoleMsg (type_ : LogType) (text : String)
      (locUrl : String) (locLine locCol : Nat) (now : Nat)
  | requestEv (info : RequestInfo) (now : Nat)
  | responseEv (info : ResponseInfo) (now : Nat)
deriving Repr

/-- Case-insensitive lookup is not what JS does here: `response.headers()`
lower-cases keys, so a plain first-match lookup models `headers['content-type']`. -/
def headerLookup (headers : List (String × String)) (key : String) : Option String :=
  (headers.find? (fun kv => kv.1 = key)).map (fun kv => kv.2)

/-- Embedding of `SessionManager.safeGetBody` (manager.ts, lines 106-120):
body capture only for JSON or `text/*` content types, truncated at 10000
characters; a failed read (modelled as `bodyText = none`) is swallowed. -/
def safeGetBody (headers : List (String × String)) (bodyText : Option String) :
    Option String :=
  let contentType := (headerLookup headers "content-type").getD ""
  if strContains contentType "application/json" || strContains contentType "text/" then
    match bodyText with
    | some t =>
        if t.data.length > 10000 then some (strTake t 10000 ++ "... [truncated]") else some t
    | none => none
  else none

/-- The response record the response listener assigns (manager.ts, lines
96-101). -/
def responseRecord (info : ResponseInfo) : NetworkResponse :=
  { status := info.status
    statusText := info.statusText
    headers := info.headers
    body := safeGetBody info.headers info.bodyText }

/-- Embedding of the response listener's correlation (manager.ts, lines
88-103): `this.networkRequests.find(r => r.url === … && r.method === … &&
!r.response)` locates the first — i.e. oldest — matching entry without a
response, and that entry's `duration` and `response` are filled in place. -/
def onResponse (info : ResponseInfo) (now : Nat) :
    List NetworkRequestEntry → List NetworkRequestEntry
  | [] => []
  | e :: rest =>
      if e.url = info.url ∧ e.method = info.method ∧ e.response = none then
        { e with
            duration := some ((now : Int) - (e.timestamp : Int))
            response := some (responseRecord info) } :: rest
      else
        e :: onResponse info now rest

/-- The entry the request listener appends (manager.ts, lines 75-86). -/
def requestEntry (info : RequestInfo) (now : Nat) : NetworkRequestEntry :=
  { id := info.id
    url := info.url
    method := info.method
    headers := info.headers
    postData := info.postData
    resourceType := info.resourceType
    timestamp := now
    duration := none
    response := none }

/-- One capture-listener step.  The console handler's
`location.url ? {…} : undefined` truthiness is made explicit. -/
def step (s : ObsState) : PageEvent → ObsState
  | .consoleMsg t txt locUrl locLine locCol now =>
      { s with
          consoleLogs := s.consoleLogs ++
            [{ type := t
               text := txt
               timestamp := now
               location :=
                 if locUrl ≠ "" then
                   some { url := locUrl, lineNumber := locLine, columnNumber := locCol }
                 else none }] }
  | .requestEv info now =>
      { s with networkRequests := s.networkRequests ++ [requestEntry info now] }
  | .responseEv info now =>
      { s with networkRequests := onResponse info now s.networkRequests }

/-- Processing a whole event sequence in arrival order. -/
def run (s : ObsState) (evs : List PageEvent) : ObsState :=
  evs.foldl step s

/-! ## Session Lifecycle Manager (src/session/manager.ts, ensureBrowser/close)

The Playwright engine is modelled as an allocator of fresh handles:
`chromium.launch`, `browser.newContext` and `context.newPage` each hand out
the next unused handle.  `SessionManagerState.nextHandle` is the allocator
counter; a call that does not change it launched nothing. -/

/-- The manager's lifecycle fields (`browser`, `context`, `page`, all nullable),
plus the fresh-handle counter of the engine model. -/
structure SessionManagerState where
  browser : Option Nat := none
  context : Option Nat := none
  page : Option Nat := none
  nextHandle : Nat := 0
deriving DecidableEq, Repr

/-- Embedding of `SessionManager.ensureBrowser` (manager.ts, lines 43-56):
if no browser exists, launch browser → context → page (three fresh handles)
and attach the listeners; otherwise return `this.page!` unchanged. -/
def ensureBrowser (s : SessionManagerState) : Nat × SessionManagerState :=
  match s.browser with
  | none =>
      let b := s.nextHandle
      let c := s.nextHandle + 1
      let p := s.nextHandle + 2
      (p, { browser := some b, context := some c, page := some p,
            nextHandle := s.nextHandle + 3 })
  | some _ => (s.page.getD 0, s)

/-- Embedding of `SessionManager.close` (manager.ts, lines 209-222): close
page, then context, then browser, each guarded and with failures swallowed
(`.catch(() => {})`), then null the field.  Teardown always reaches the
all-null state. -/
def closeSession (s : SessionManagerState) : SessionManagerState :=
  let s := match s.page with
    | some _ => { s with page := none }
    | none => s
  let s := match s.context with
    | some _ => { s with context := none }
    | none => s
  let s := match s.browser with
    | some _ => { s with browser := none }
    | none => s
  s

/-! ## The tool layer (src/tools/network.ts, src/tools/qa.ts)

Tool operations return MCP responses: a list of content items.  Operations
whose body can throw (there is no `try`/`catch` around the regex
construction in `getNetworkRequests` and `verifyNoErrors`) live in
`Except String`. -/

/-- One content item of a tool response. -/
inductive ContentItem
  | text (s : String)
  | image (dataB64 mimeType : String)
deriving DecidableEq, Repr

/-- A well-formed tool response. -/
structure ToolResponse where
  content : List ContentItem
deriving DecidableEq, Repr

/-- Models JS `Array.prototype.slice(start)` for a possibly negative start. -/
def jsSliceFrom (l : List α) (start : Int) : List α :=
  let len : Int := l.length
  let s := if start < 0 then max (len + start) 0 else min start len
  l.drop s.toNat

/-- Arguments of the `get_network_requests` tool (network.ts, lines 4-26);
`limit` defaults to 20. -/
structure GetNetworkRequestsArgs where
  urlPattern : Option String := none
  methods : Option (List String) := none
  statusCodes : Option (List Int) := none
  failed : Option Bool := none
  limit : Int := 20
deriving Repr

/-- The per-request line of the `get_network_requests` output (network.ts,
lines 49-55).  `req.duration ? … : 'N/A'` is truthiness: a 0ms duration
prints `N/A`. -/
def formatRequest (req : NetworkRequestEntry) : String :=
  let status := match req.response with
    | some resp => toString resp.status
    | none => "PENDING"
  let duration := match req.duration with
    | some d => if d ≠ 0 then toString d ++ "ms" else "N/A"
    | none => "N/A"
  req.method ++ " " ++ req.url ++ "\n  status: " ++ status ++ ", duration: " ++ duration

/-- Embedding of the `getNetworkRequests` tool operation (network.ts, lines
28-65).  There is no `try`/`catch`: an exception from
`sessionManager.getNetworkRequests` propagates. -/
def toolGetNetworkRequests (args : GetNetworkRequestsArgs)
    (networkRequests : List NetworkRequestEntry) : Except String ToolResponse := do
  let requests ← SessionManager.getNetworkRequests
    { urlPattern := args.urlPattern
      methods := args.methods
      statusCodes := args.statusCodes
      failed := args.failed } networkRequests
  let limited := jsSliceFrom requests (-args.limit)
  if limited.length = 0 then
    pure { content := [.text "no network requests matching filters"] }
  else
    pure { content := [.text ("network requests (" ++ toString limited.length ++ "):\n\n"
      ++ String.intercalate "\n\n" (limited.map formatRequest))] }

/-- Arguments of the `verify_no_errors` tool (qa.ts, lines 55-64). -/
structure VerifyNoErrorsArgs where
  since : Option Nat := none
  ignorePatterns : Option (List String) := none
deriving Repr

/-- Embedding of the `verifyNoErrors` tool operation (qa.ts, lines 66-101).
`args.ignorePatterns.map(p => new RegExp(p))` can throw and nothing catches
it. -/
def verifyNoErrors (args : VerifyNoErrorsArgs) (consoleLogs : List ConsoleLogEntry) :
    Except String ToolResponse := do
  let errors := SessionManager.getConsoleLogs
    { types := some [.error], since := args.since } consoleLogs
  let errors ←
    match args.ignorePatterns with
    | some ps =>
        if ps.length > 0 then do
          let patterns ← ps.mapM compileRegExp
          pure (errors.filter (fun e => !(patterns.any (fun p => regexTest p e.text))))
        else pure errors
    | none => pure errors
  if errors.length = 0 then
    pure { content := [.text "PASS: no console errors detected"] }
  else
    let errorList := String.intercalate "\n"
      ((errors.take 10).map (fun e => "- " ++ strTake e.text 100))
    pure { content := [.text ("FAIL: " ++ toString errors.length
      ++ " console error(s) detected\n\n" ++ errorList
      ++ (if errors.length > 10 then "\n... and " ++ toString (errors.length - 10) ++ " more"
          else ""))] }

/-! ## Structural Diff Engine (src/tools/dom.ts, domDiff) -/

/-- Models JS `String.prototype.trim`: strip leading and trailing
whitespace (over the common whitespace characters). -/
def jsTrim (s : String) : String :=
  ⟨((s.data.dropWhile Char.isWhitespace).reverse.dropWhile Char.isWhitespace).reverse⟩

/-- Splits a character list at newline characters (keeping empty pieces). -/
def splitLinesAux : List Char → List (List Char)
  | [] => [[]]
  | c :: cs =>
      match splitLinesAux cs with
      | [] => [[]]
      | line :: rest => if c = '\n' then [] :: line :: rest else (c :: line) :: rest

/-- Models JS `String.prototype.split('\n')`. -/
def jsSplitLines (s : String) : List String :=
  (splitLinesAux s.data).map (fun cs => ⟨cs⟩)

/-- Models `new Set(list)` for strings: deduplication keeping first
occurrences; only `.has` (= membership) is consumed. -/
def jsSetOfList (l : List String) : List String :=
  l.foldl (fun acc x => if acc.contains x then acc else acc ++ [x]) []

/-- The structured outcome of the `domDiff` tool; `added`/`removed` are the
lists the tool accumulates (dom.ts, lines 101-119) before rendering them. -/
inductive DomDiffOutcome
  | notFoundBaseline (name : String)
  | notFoundCurrent (name : String)
  | pass
  | diff (added removed : List String)
deriving DecidableEq, Repr

/-- Embedding of the `domDiff` tool operation (dom.ts, lines 61-147):
resolve both names (name-specific not-found failures), report PASS on
textually identical payloads, otherwise compute the trimmed line-set
difference, each reported line truncated to its first 100 characters
(`trimmed.substring(0, 100)`). -/
def domDiff (getSnapshot : String → Option String) (baselineName currentName : String) :
    DomDiffOutcome :=
  match getSnapshot baselineName with
  | none => .notFoundBaseline baselineName
  | some baseline =>
    match getSnapshot currentName with
    | none => .notFoundCurrent currentName
    | some current =>
      if baseline = current then .pass
      else
        let baselineLines := jsSplitLines baseline
        let currentLines := jsSplitLines current
        let baselineSet := jsSetOfList (baselineLines.map jsTrim)
        let currentSet := jsSetOfList (currentLines.map jsTrim)
        let added := currentLines.filterMap (fun l =>
          let trimmed := jsTrim l
          if trimmed ≠ "" ∧ ¬ baselineSet.contains trimmed then some (strTake trimmed 100)
          else none)
        let removed := baselineLines.filterMap (fun l =>
          let trimmed := jsTrim l
          if trimmed ≠ "" ∧ ¬ currentSet.contains trimmed then some (strTake trimmed 100)
          else none)
        .diff added removed

/-! ## Visual Diff Engine (src/tools/visual.ts, visualDiff)

The two platform libraries are modelled as follows.

* `sharp(buffer).raw().ensureAlpha().toBuffer(…)` — decoding a stored PNG
  buffer to a raw RGBA pixel buffer plus dimensions — is a deterministic
  external decoder; `visualDiff` takes it as an explicit `decode` argument
  (it can fail, which the tool's outer `try`/`catch` turns into an error
  response).
* `pixelmatch` (v5) is modelled concretely below: the identical-buffer fast
  path returning 0, and otherwise a per-pixel count of YIQ colour deltas
  exceeding `35215 · threshold²`, with exact rational arithmetic in place of
  JS floats.  pixelmatch's anti-aliasing detection (which can only reclassify
  pixels that already differ) is not modelled; no claim exercises differing
  images of equal dimensions. -/

/-- A decoded raw image: dimensions plus RGBA bytes (4 per pixel). -/
structure RawImage where
  width : Nat
  height : Nat
  data : List Nat
deriving DecidableEq, Repr

/-- Byte `i` of a pixel buffer, as a rational (out-of-range reads give 0). -/
def byteAt (d : List Nat) (i : Nat) : ℚ := ((d.getD i 0 : Nat) : ℚ)

/-- pixelmatch's `blend`: alpha-blend a channel onto white. -/
def pmBlend (c a : ℚ) : ℚ := 255 + (c - 255) * a

/-- pixelmatch's `rgb2y`. -/
def rgb2y (r g b : ℚ) : ℚ :=
  r * (29889531 / 100000000) + g * (58662247 / 100000000) + b * (11448223 / 100000000)

/-- pixelmatch's `rgb2i`. -/
def rgb2i (r g b : ℚ) : ℚ :=
  r * (59597799 / 100000000) - g * (27417610 / 100000000) - b * (32180189 / 100000000)

/-- pixelmatch's `rgb2q`. -/
def rgb2q (r g b : ℚ) : ℚ :=
  r * (21147017 / 100000000) - g * (52261711 / 100000000) + b * (31114694 / 100000000)

/-- pixelmatch's `colorDelta` on the pixels at byte offsets `k` (in `img1`)
and `m` (in `img2`): 0 for identical RGBA values, otherwise the squared YIQ
distance of the white-blended colours. -/
def colorDelta (img1 img2 : List Nat) (k m : Nat) : ℚ :=
  let r1 := byteAt img1 k
  let g1 := byteAt img1 (k + 1)
  let b1 := byteAt img1 (k + 2)
  let a1 := byteAt img1 (k + 3)
  let r2 := byteAt img2 m
  let g2 := byteAt img2 (m + 1)
  let b2 := byteAt img2 (m + 2)
  let a2 := byteAt img2 (m + 3)
  if r1 = r2 ∧ g1 = g2 ∧ b1 = b2 ∧ a1 = a2 then 0
  else
    let p1 := if a1 < 255 then
        (pmBlend r1 (a1 / 255), pmBlend g1 (a1 / 255), pmBlend b1 (a1 / 255))
      else (r1, g1, b1)
    let p2 := if a2 < 255 then
        (pmBlend r2 (a2 / 255), pmBlend g2 (a2 / 255), pmBlend b2 (a2 / 255))
      else (r2, g2, b2)
    let y := rgb2y p1.1 p1.2.1 p1.2.2 - rgb2y p2.1 p2.2.1 p2.2.2
    let i := rgb2i p1.1 p1.2.1 p1.2.2 - rgb2i p2.1 p2.2.1 p2.2.2
    let q := rgb2q p1.1 p1.2.1 p1.2.2 - rgb2q p2.1 p2.2.1 p2.2.2
    (5053 / 10000) * y * y + (299 / 1000) * i * i + (1957 / 10000) * q * q

/-- Models `pixelmatch(img1, img2, diff, width, height, { threshold })`:
identical buffers short-circuit to 0; otherwise count the pixels whose
colour delta exceeds `35215 · threshold²`. -/
def pixelmatchCount (img1 img2 : List Nat) (width height : Nat) (threshold : ℚ) : Nat :=
  if img1 = img2 then 0
  else
    let maxDelta := 35215 * threshold * threshold
    (List.range (width * height)).countP
      (fun p => decide (|colorDelta img1 img2 (4 * p) (4 * p)| > maxDelta))

/-- The structured outcome of the `visualDiff` tool.  `diffPercent` is
`none` when JS would compute `NaN` (a 0-pixel image). -/
inductive VisualDiffOutcome
  | notFoundBaseline (name : String)
  | notFoundCurrent (name : String)
  | decodeFailure (message : String)
  | dimensionMismatch (baselineWidth baselineHeight currentWidth currentHeight : Nat)
  | compared (numDiffPixels : Nat) (diffPercent : Option ℚ) (passed : Bool)
deriving DecidableEq, Repr

/-- Embedding of the `visualDiff` tool operation (visual.ts, lines 73-161):
resolve both names (name-specific not-found failures); decode both buffers
(a decode failure is caught by the outer handler and reported); if the
decoded dimensions differ, report the mismatch carrying both dimensions and
compare no pixels; otherwise run pixelmatch and declare PASS iff the
difference percentage is strictly below 1. -/
def visualDiff (decode : List Nat → Except String RawImage)
    (getScreenshot : String → Option (List Nat))
    (baselineName currentName : String) (threshold : ℚ) : VisualDiffOutcome :=
  match getScreenshot baselineName with
  | none => .notFoundBaseline baselineName
  | some baselineBuf =>
    match getScreenshot currentName with
    | none => .notFoundCurrent currentName
    | some currentBuf =>
      match decode baselineBuf with
      | .error m => .decodeFailure m
      | .ok img1 =>
        match decode currentBuf with
        | .error m => .decodeFailure m
        | .ok img2 =>
          if img1.width ≠ img2.width ∨ img1.height ≠ img2.height then
            .dimensionMismatch img1.width img1.height img2.width img2.height
          else
            let numDiffPixels :=
              pixelmatchCount img1.data img2.data img1.width img1.height threshold
            let totalPixels := img1.width * img1.height
            let diffPercent : Option ℚ :=
              if totalPixels = 0 then none
              else some (((numDiffPixels : ℚ) / (totalPixels : ℚ)) * 100)
            let passed := match diffPercent with
              | some pct => decide (pct < 1)
              | none => false
            .compared numDiffPixels diffPercent passed

/-! ## Reference-level model of the history reads (for the defensive-copy claim)

`getConsoleLogs`/`getNetworkRequests` return `[...history]` possibly passed
through `.filter`: in JS these allocate a *fresh array* whose elements are
the *same entry-object references* as the internal history's.  To reason
about caller mutation we model object references explicitly: a `RefHeap`
holds the entry objects (addressed by index) and the arrays of references
(also addressed by index).  By construction the manager's internal history
array lives at array address `0`; every allocation appends.  The `pred`
parameter abstracts the value-level filter passes (modelled exactly by
`SessionManager.getConsoleLogs` above); it reads the shared objects, as the
JS filter callbacks do. -/

structure RefHeap (α : Type) where
  objects : List α
  arrays : List (List Nat)
deriving Repr

/-- The address of the manager's internal history array. -/
def historyAddr : Nat := 0

/-- Contents of the array at address `a`. -/
def readArray (h : RefHeap α) (a : Nat) : List Nat :=
  (h.arrays[a]?).getD []

/-- Dereference an object reference. -/
def readObject (h : RefHeap α) (r : Nat) : Option α :=
  h.objects[r]?

/-- The entry values a caller observes through the array at `a`. -/
def resolveArray (h : RefHeap α) (a : Nat) : List α :=
  (readArray h a).filterMap (readObject h)

/-- Reference-level model of a history read (`[...this.consoleLogs]` plus
filter passes): allocate a fresh array holding the surviving references of
the internal history array, and hand its address to the caller. -/
def readHistory (pred : α → Bool) (h : RefHeap α) : RefHeap α × Nat :=
  let refs := (readArray h historyAddr).filter (fun r =>
    match readObject h r with
    | some o => pred o
    | none => false)
  ({ h with arrays := h.arrays ++ [refs] }, h.arrays.length)

/-- A caller mutating a returned *entry object* (`returned[i].text = …`):
an in-place update of the shared object. -/
def writeObject (h : RefHeap α) (r : Nat) (v : α) : RefHeap α :=
  { h with objects := h.objects.set r v }

/-- A caller mutating the returned *array itself* (push/pop/splice/index
assignment): extensionally, replacing the contents of the array at `a`. -/
def writeArray (h : RefHeap α) (a : Nat) (l : List Nat) : RefHeap α :=
  { h with arrays := h.arrays.set a l }

/-! ## Claim-side specification predicates and concrete instances

These definitions follow the wording of the specification claims (not the
code); the theorems below compare them with the embedded code. -/

/-- The "failed" criterion exactly as claim C7 states it: response absent, or
response status at least 400. -/
def isFailedEntry (e : NetworkRequestEntry) : Bool :=
  decide (e.response = none) ||
    (match e.response with
     | some resp => decide (resp.status ≥ 400)
     | none => false)

/-- Claim C4's kind dimension, verbatim: a provided kind list constrains the
entry type to be a member of it. -/
def consoleClaimPred (f : ConsoleFilter) (log : ConsoleLogEntry) : Bool :=
  (match f.types with
   | some ts => ts.contains log.type
   | none => true) &&
  (match f.since with
   | some s => decide (log.timestamp ≥ s)
   | none => true) &&
  (match f.search with
   | some q => strContains log.text.toLower q.toLower
   | none => true)

/-- Amended kind dimension: a provided but *empty* kind list imposes no
constraint (as the code's `filter.types.length > 0` guard does). -/
def typesPred (types : Option (List LogType)) (log : ConsoleLogEntry) : Bool :=
  match types with
  | some ts => decide (ts.length = 0) || ts.contains log.type
  | none => true

/-- The timestamp lower bound dimension (inclusive). -/
def sincePred (since : Option Nat) (log : ConsoleLogEntry) : Bool :=
  match since with
  | some s => decide (log.timestamp ≥ s)
  | none => true

/-- The case-insensitive substring dimension. -/
def searchPred (search : Option String) (log : ConsoleLogEntry) : Bool :=
  match search with
  | some q => strContains log.text.toLower q.toLower
  | none => true

/-- The amended claim-C4 criterion: all provided dimensions, with an empty
kind list imposing no constraint. -/
def consoleAmendedPred (f : ConsoleFilter) (log : ConsoleLogEntry) : Bool :=
  typesPred f.types log && sincePred f.since log && searchPred f.search log

/-- Claim C9's added-lines characterization, amended only by the truncation
the code applies (`trimmed.substring(0, 100)`): the trimmed non-empty lines
of `current` absent, by exact string membership, from `baseline`'s
trimmed-line set, each truncated to its first 100 characters. -/
def specAdded (baseline current : String) : List String :=
  (jsSplitLines current).filterMap (fun l =>
    let trimmed := jsTrim l
    if trimmed ≠ "" ∧ ¬ ((jsSplitLines baseline).map jsTrim).contains trimmed then
      some (strTake trimmed 100)
    else none)

/-- The symmetric removed-lines characterization. -/
def specRemoved (baseline current : String) : List String :=
  (jsSplitLines baseline).filterMap (fun l =>
    let trimmed := jsTrim l
    if trimmed ≠ "" ∧ ¬ ((jsSplitLines current).map jsTrim).contains trimmed then
      some (strTake trimmed 100)
    else none)

/-! Concrete instances used by counterexamples and witnesses. -/

/-- An unresolved exchange appended first (the older one). -/
def ceEntry1 : NetworkRequestEntry :=
  { id := "req-a", url := "http://localhost:3000/api", method := "GET",
    headers := [], resourceType := "fetch", timestamp := 10 }

/-- A second unresolved exchange for the same URL and method, appended later
(the more recent one). -/
def ceEntry2 : NetworkRequestEntry :=
  { id := "req-b", url := "http://localhost:3000/api", method := "GET",
    headers := [], resourceType := "fetch", timestamp := 20 }

/-- A response event matching both entries above. -/
def ceInfo : ResponseInfo :=
  { url := "http://localhost:3000/api", method := "GET", status := 200,
    statusText := "OK", headers := [] }

/-- A console entry as first stored. -/
def aliasEntry0 : ConsoleLogEntry := { type := .error, text := "boom", timestamp := 1 }

/-- The same entry after a caller edits its text in place. -/
def aliasEntry1 : ConsoleLogEntry := { type := .error, text := "edited", timestamp := 1 }

/-- A heap whose internal history array (address 0) holds one entry. -/
def aliasHeap0 : RefHeap ConsoleLogEntry := { objects := [aliasEntry0], arrays := [[0]] }

/-- A 101-character DOM line (one character past the truncation limit). -/
def longLine : String := ⟨List.replicate 101 'a'⟩

/-- `longLine` truncated to 100 characters. -/
def longLine100 : String := ⟨List.replicate 100 'a'⟩

/-- A snapshot store for the C9 counterexample. -/
def longLineStore : String → Option String := fun n =>
  if n = "baseline" then some "x" else if n = "current" then some longLine else none

/-- A snapshot store holding the exact example of claim C9. -/
def exampleDomStore : String → Option String := fun n =>
  if n = "baseline" then some "<div>a</div>\n<div>b</div>"
  else if n = "current" then some "<div>a</div>\n<div>c</div>" else none

/-- A raw-image decoder for witnesses: byte 0 is the width, byte 1 the
height, the rest the RGBA data. -/
def sampleDecode : List Nat → Except String RawImage
  | w :: h :: rest => .ok { width := w, height := h, data := rest }
  | _ => .error "input buffer has corrupt header"

/-- A screenshot store holding one 1x1 image under two names and a 2x1 image
under a third. -/
def sampleScreenshotStore : String → Option (List Nat) := fun n =>
  if n = "base" then some [1, 1, 7, 7, 7, 255]
  else if n = "copy" then some [1, 1, 7, 7, 7, 255]
  else if n = "wide" then some [2, 1, 7, 7, 7, 255, 9, 9, 9, 255] else none

/-! ## Proof-layer stage mirrors of `SessionManager.getConsoleLogs`

The three filter passes of `getConsoleLogs`, as standalone functions; by
construction `getConsoleLogs f logs` is definitionally the composition of
the three. -/

/-- The kind pass (`filter?.types && filter.types.length > 0`). -/
def applyTypes (types : Option (List LogType)) (l : List ConsoleLogEntry) :
    List ConsoleLogEntry :=
  match types with
  | some ts => if ts.length > 0 then l.filter (fun log => ts.contains log.type) else l
  | none => l

/-- The timestamp pass (`filter?.since` truthiness). -/
def applySince (since : Option Nat) (l : List ConsoleLogEntry) : List ConsoleLogEntry :=
  match since with
  | some s => if s ≠ 0 then l.filter (fun log => decide (log.timestamp ≥ s)) else l
  | none => l

/-- The search pass (`filter?.search` truthiness). -/
def applySearch (search : Option String) (l : List ConsoleLogEntry) : List ConsoleLogEntry :=
  match search with
  | some q =>
      if q ≠ "" then l.filter (fun log => strContains log.text.toLower q.toLower) else l
  | none => l

/-! ## Theorems -/

/-- **C1, counterexample.**  A history holding two matching unresolved
entries: the response event fills the *oldest* one (`ceEntry1`, appended
first), while the most recent matching unresolved entry (`ceEntry2`) is left
untouched with its response still absent — contradicting the claim that the
most recent such entry is correlated. -/
theorem most_recent_correlation_counterexample :
    step { consoleLogs := [], networkRequests := [ceEntry1, ceEntry2] }
        (.responseEv ceInfo 50) =
      { consoleLogs := [],
        networkRequests :=
          [{ ceEntry1 with duration := some 40, response := some (responseRecord ceInfo) },
           ceEntry2] }
    ∧ ceEntry1.url = ceInfo.url ∧ ceEntry1.method = ceInfo.method ∧ ceEntry1.response = none
    ∧ ceEntry2.url = ceInfo.url ∧ ceEntry2.method = ceInfo.method ∧ ceEntry2.response = none
    ∧ ceEntry1.timestamp < ceEntry2.timestamp := by
  decide

/-- **C1 (amended).**  When a response event arrives, the capture subsystem
correlates it to the *oldest* network-history entry whose URL and method
match and whose response is still absent — the first match of
`this.networkRequests.find` — and fills that entry's response fields and its
duration (`now` minus that entry's request timestamp), leaving every other
entry and the console history unchanged; this holds for every history,
including ones holding two or more matching unresolved entries. -/
theorem response_correlates_to_oldest_unresolved
    (s : ObsState) (pre post : List NetworkRequestEntry) (e : NetworkRequestEntry)
    (info : ResponseInfo) (now : Nat)
    (hs : s.networkRequests = pre ++ e :: post)
    (hpre : ∀ e' ∈ pre, ¬(e'.url = info.url ∧ e'.method = info.method ∧ e'.response = none))
    (hu : e.url = info.url) (hm : e.method = info.method) (hr : e.response = none) :
    step s (.responseEv info now) =
      { s with networkRequests := pre ++
          { e with duration := some ((now : Int) - (e.timestamp : Int)),
                   response := some (responseRecord info) } :: post } := by
  have key : ∀ (l : List NetworkRequestEntry),
      (∀ e' ∈ l, ¬(e'.url = info.url ∧ e'.method = info.method ∧ e'.response = none)) →
      onResponse info now (l ++ e :: post) =
        l ++ { e with duration := some ((now : Int) - (e.timestamp : Int)),
                      response := some (responseRecord info) } :: post := by
    intro l hl
    induction l with
    | nil =>
        simp only [List.nil_append, onResponse]
        rw [if_pos ⟨hu, hm, hr⟩]
    | cons a l ih =>
        have ha := hl a (List.mem_cons_self a l)
        simp only [List.cons_append, onResponse]
        rw [if_neg ha]
        exact congrArg (List.cons a) (ih (fun e' he' => hl e' (List.mem_cons_of_mem a he')))
  simp only [step, hs, key pre hpre]

/-- Witness for `response_correlates_to_oldest_unresolved`, at the two-entry
history of the counterexample. -/
theorem response_correlates_to_oldest_unresolved_witness :
    (({ consoleLogs := [], networkRequests := [ceEntry1, ceEntry2] } : ObsState).networkRequests
        = [] ++ ceEntry1 :: [ceEntry2])
    ∧ (∀ e' ∈ ([] : List NetworkRequestEntry),
        ¬(e'.url = ceInfo.url ∧ e'.method = ceInfo.method ∧ e'.response = none))
    ∧ ceEntry1.url = ceInfo.url ∧ ceEntry1.method = ceInfo.method ∧ ceEntry1.response = none
    ∧ step { consoleLogs := [], networkRequests := [ceEntry1, ceEntry2] }
          (.responseEv ceInfo 50) =
        { consoleLogs := ([] : List ConsoleLogEntry),
          networkRequests := [] ++
            { ceEntry1 with duration := some ((50 : Int) - (ceEntry1.timestamp : Int)),
                            response := some (responseRecord ceInfo) } :: [ceEntry2] } :=
  ⟨rfl, by simp, rfl, rfl, rfl,
   response_correlates_to_oldest_unresolved _ [] [ceEntry2] ceEntry1 ceInfo 50 rfl
     (by simp) rfl rfl rfl⟩

/-- **C2.**  The claim fails on the code: the `getNetworkRequests` tool with
a schema-admitted `urlPattern` that is not a valid regular expression, and
the `verifyNoErrors` tool with such an `ignorePatterns` element, let the
`RegExp` constructor's exception propagate instead of returning an
`error:`-prefixed text item. -/
theorem network_tools_throw_on_invalid_pattern :
    (∃ msg, toolGetNetworkRequests { urlPattern := some "(" } [] = Except.error msg) ∧
    (∃ msg, verifyNoErrors { ignorePatterns := some ["("] } [] = Except.error msg) :=
  ⟨⟨_, rfl⟩, ⟨_, rfl⟩⟩

/-- Searching for the empty string always succeeds (`''.includes` semantics). -/
theorem strContains_empty (s : String) : strContains s "" = true := by
  simp only [strContains, List.any_eq_true]
  exact ⟨0, List.mem_range.mpr (Nat.succ_pos _), by simp⟩

/-- The kind pass is a filter by `typesPred`. -/
theorem applyTypes_eq_filter (types : Option (List LogType)) (l : List ConsoleLogEntry) :
    applyTypes types l = l.filter (typesPred types) := by
  cases types with
  | none => exact (List.filter_true l).symm
  | some ts =>
      show (if ts.length > 0 then l.filter (fun log => ts.contains log.type) else l) = _
      by_cases h : ts.length > 0
      · rw [if_pos h]
        apply List.filter_congr
        intro x _
        have hz : decide (ts.length = 0) = false :=
          decide_eq_false (Nat.pos_iff_ne_zero.mp h)
        simp only [typesPred, hz, Bool.false_or]
      · rw [if_neg h]
        have hz : ts.length = 0 := Nat.eq_zero_of_not_pos h
        have : typesPred (some ts) = fun _ => true := by
          funext log
          simp [typesPred, hz]
        rw [this, List.filter_true]

/-- The timestamp pass is a filter by `sincePred`: the `since = 0` truthiness
skip is harmless because every `Nat` timestamp satisfies `≥ 0`. -/
theorem applySince_eq_filter (since : Option Nat) (l : List ConsoleLogEntry) :
    applySince since l = l.filter (sincePred since) := by
  cases since with
  | none => exact (List.filter_true l).symm
  | some s =>
      show (if s ≠ 0 then l.filter (fun log => decide (log.timestamp ≥ s)) else l) = _
      by_cases h : s ≠ 0
      · rw [if_pos h]; rfl
      · rw [if_neg h]
        push_neg at h
        subst h
        have : sincePred (some 0) = fun _ => true := by
          funext log
          simp [sincePred, Nat.zero_le]
        rw [this, List.filter_true]

/-- The search pass is a filter by `searchPred`: the `search = ""` truthiness
skip is harmless because every text contains the empty string. -/
theorem applySearch_eq_filter (search : Option String) (l : List ConsoleLogEntry) :
    applySearch search l = l.filter (searchPred search) := by
  cases search with
  | none => exact (List.filter_true l).symm
  | some q =>
      show (if q ≠ "" then l.filter (fun log => strContains log.text.toLower q.toLower) else l)
        = _
      by_cases h : q ≠ ""
      · rw [if_pos h]; rfl
      · rw [if_neg h]
        push_neg at h
        subst h
        have : searchPred (some "") = fun _ => true := by
          funext log
          have h0 : ("" : String).toLower = "" := by
            show String.mapAux Char.toLower 0 "" = ""
            rw [String.mapAux]
            rfl
          simp [searchPred, h0, strContains_empty]
        rw [this, List.filter_true]

/-- **C4, counterexample.**  The filter `{ types := some [] }` provides a
kind list, so by the claim only entries whose type is a member of `[]` —
none — should be returned; the code's `filter.types.length > 0` guard makes
it return the whole history instead. -/
theorem console_empty_types_counterexample :
    SessionManager.getConsoleLogs { types := some [] }
        [{ type := .log, text := "hello", timestamp := 5 }] =
      [{ type := .log, text := "hello", timestamp := 5 }]
    ∧ consoleClaimPred { types := some [] }
        { type := .log, text := "hello", timestamp := 5 } = false := by
  decide

/-- **C4 (amended).**  For every console history and every filter,
`getConsoleLogs` returns exactly the entries satisfying all provided filter
dimensions — entry type a member of the given kind list *when that list is
non-empty* (a provided empty list imposes no constraint), timestamp at least
the given lower bound (inclusive), text containing the search string
case-insensitively — in original capture order (a single order-preserving
`List.filter`); an absent dimension imposes no constraint. -/
theorem getConsoleLogs_filters_exactly (f : ConsoleFilter) (logs : List ConsoleLogEntry) :
    SessionManager.getConsoleLogs f logs = logs.filter (consoleAmendedPred f) := by
  obtain ⟨types, since, search⟩ := f
  rw [show SessionManager.getConsoleLogs ⟨types, since, search⟩ logs =
        applySearch search (applySince since (applyTypes types logs)) from rfl,
      applyTypes_eq_filter, applySince_eq_filter, applySearch_eq_filter,
      List.filter_filter, List.filter_filter]
  apply List.filter_congr
  intro x _
  simp only [consoleAmendedPred]
  cases hA : typesPred types x <;> cases hS : sincePred since x <;>
    cases hQ : searchPred search x <;> simp [hA, hS, hQ]

/-- Witness for `getConsoleLogs_filters_exactly`: a concrete two-entry
history and a kind + timestamp filter. -/
theorem getConsoleLogs_filters_exactly_witness :
    SessionManager.getConsoleLogs { types := some [.error], since := some 3 }
        [{ type := .error, text := "boom", timestamp := 5 },
         { type := .log, text := "x", timestamp := 1 }] =
      [{ type := .error, text := "boom", timestamp := 5 },
       { type := .log, text := "x", timestamp := 1 }].filter
        (consoleAmendedPred { types := some [.error], since := some 3 })
    ∧ [{ type := .error, text := "boom", timestamp := 5 },
       { type := .log, text := "x", timestamp := 1 }].filter
        (consoleAmendedPred { types := some [.error], since := some 3 }) =
      [{ type := .error, text := "boom", timestamp := 5 }] :=
  ⟨getConsoleLogs_filters_exactly _ _, by decide⟩

/-- Filled entries are never re-targeted by the response listener: its
`find` requires `!r.response`. -/
theorem onResponse_preserves_filled (info : ResponseInfo) (now : Nat) :
    ∀ (l : List NetworkRequestEntry) (i : Nat) (e : NetworkRequestEntry),
      l[i]? = some e → e.response.isSome → (onResponse info now l)[i]? = some e := by
  intro l
  induction l with
  | nil => intro i e h _; simp at h
  | cons a l ih =>
      intro i e h hr
      by_cases hc : a.url = info.url ∧ a.method = info.method ∧ a.response = none
      · cases i with
        | zero =>
            simp only [List.getElem?_cons_zero, Option.some.injEq] at h
            subst h
            rw [hc.2.2] at hr
            simp at hr
        | succ n =>
            simp only [List.getElem?_cons_succ] at h
            simp only [onResponse, if_pos hc, List.getElem?_cons_succ]
            exact h
      · cases i with
        | zero =>
            simp only [List.getElem?_cons_zero] at h
            simp only [onResponse, if_neg hc, List.getElem?_cons_zero]
            exact h
        | succ n =>
            simp only [List.getElem?_cons_succ] at h
            simp only [onResponse, if_neg hc, List.getElem?_cons_succ]
            exact ih n e h hr

/-- A single capture-listener step preserves any entry whose response is
already set, at its index. -/
theorem step_preserves_filled (s : ObsState) (ev : PageEvent) (i : Nat)
    (e : NetworkRequestEntry)
    (h : s.networkRequests[i]? = some e) (hr : e.response.isSome) :
    (step s ev).networkRequests[i]? = some e := by
  cases ev with
  | consoleMsg t txt lu ll lc now => simpa [step] using h
  | requestEv info now =>
      have hi : i < s.networkRequests.length := by
        rcases List.getElem?_eq_some.mp h with ⟨hlt, _⟩
        exact hlt
      simp only [step]
      rw [List.getElem?_append_left hi]
      exact h
  | responseEv info now =>
      simp only [step]
      exact onResponse_preserves_filled info now _ i e h hr

/-- **C5.**  For every sequence of request and response events processed by
the capture listeners, once a network-history entry's response sub-record
has been set, no later event changes that entry: it is preserved verbatim
(response fields and duration included) at its index in the history. -/
theorem response_once_set_never_overwritten (s : ObsState) (evs : List PageEvent)
    (i : Nat) (e : NetworkRequestEntry)
    (h : s.networkRequests[i]? = some e) (hr : e.response.isSome) :
    (run s evs).networkRequests[i]? = some e := by
  induction evs generalizing s with
  | nil => exact h
  | cons ev evs ih =>
      simp only [run, List.foldl_cons]
      exact ih (step s ev) (step_preserves_filled s ev i e h hr)

/-- Witness for `response_once_set_never_overwritten`: a filled entry
survives a further matching response event and a request event. -/
theorem response_once_set_never_overwritten_witness :
    (({ consoleLogs := [],
        networkRequests :=
          [{ ceEntry1 with duration := some 40,
                           response := some (responseRecord ceInfo) }] } :
        ObsState).networkRequests[0]? =
      some { ceEntry1 with duration := some 40, response := some (responseRecord ceInfo) })
    ∧ ({ ceEntry1 with duration := some 40,
                       response := some (responseRecord ceInfo) }).response.isSome
    ∧ (run { consoleLogs := [],
             networkRequests :=
               [{ ceEntry1 with duration := some 40,
                                response := some (responseRecord ceInfo) }] }
         [.responseEv ceInfo 90, .requestEv ⟨"req-c", "u", "GET", [], none, "fetch"⟩ 95]
       ).networkRequests[0]? =
      some { ceEntry1 with duration := some 40, response := some (responseRecord ceInfo) } :=
  ⟨rfl, rfl,
   response_once_set_never_overwritten _ _ 0 _ rfl rfl⟩

/-- An orphan response leaves the network history unchanged: the listener's
`find` produces no target and the conditional body never runs. -/
theorem onResponse_no_match (info : ResponseInfo) (now : Nat) :
    ∀ (l : List NetworkRequestEntry),
      (∀ e ∈ l, ¬(e.url = info.url ∧ e.method = info.method ∧ e.response = none)) →
      onResponse info now l = l := by
  intro l hl
  induction l with
  | nil => rfl
  | cons a l ih =>
      simp only [onResponse]
      rw [if_neg (hl a (List.mem_cons_self a l)),
        ih (fun e he => hl e (List.mem_cons_of_mem a he))]

/-- **C6.**  Processing a response event whose request URL and method match
no pending unresolved entry leaves the whole observation state unchanged: no
new entry materializes and no existing entry (in either history) is
modified. -/
theorem orphan_response_leaves_state_unchanged (s : ObsState) (info : ResponseInfo)
    (now : Nat)
    (h : ∀ e ∈ s.networkRequests,
        ¬(e.url = info.url ∧ e.method = info.method ∧ e.response = none)) :
    step s (.responseEv info now) = s := by
  simp only [step, onResponse_no_match info now s.networkRequests h]

/-- Witness for `orphan_response_leaves_state_unchanged`: a response for a
URL that no pending entry has. -/
theorem orphan_response_leaves_state_unchanged_witness :
    (∀ e ∈ ({ consoleLogs := [], networkRequests := [ceEntry1] } : ObsState).networkRequests,
      ¬(e.url = "http://localhost:3000/other" ∧ e.method = "GET" ∧ e.response = none))
    ∧ step { consoleLogs := [], networkRequests := [ceEntry1] }
        (.responseEv { url := "http://localhost:3000/other", method := "GET", status := 200,
                       statusText := "OK", headers := [] } 50) =
      { consoleLogs := [], networkRequests := [ceEntry1] } :=
  ⟨by decide,
   orphan_response_leaves_state_unchanged _ _ 50 (by decide)⟩

/-- **C7.**  For every constructed network history, `getNetworkRequests`
with `failed = true` (and no other filter dimension) succeeds and returns
exactly the entries whose response is absent or whose response status is at
least 400, in history order. -/
theorem getNetworkRequests_failed_exact (reqs : List NetworkRequestEntry) :
    SessionManager.getNetworkRequests { failed := some true } reqs =
      Except.ok (reqs.filter isFailedEntry)
    ∧ ∀ e, e ∈ reqs.filter isFailedEntry ↔
        e ∈ reqs ∧ (e.response = none ∨ ∃ resp, e.response = some resp ∧ resp.status ≥ 400) := by
  constructor
  · have hpred : ∀ r : NetworkRequestEntry,
        (match r.response with
         | some resp => decide (resp.status ≥ 400)
         | none => true) = isFailedEntry r := by
      intro r
      cases hr : r.response <;> simp [isFailedEntry, hr]
    exact congrArg Except.ok (List.filter_congr (fun x _ => hpred x))
  · intro e
    rw [List.mem_filter]
    constructor
    · rintro ⟨hmem, hp⟩
      refine ⟨hmem, ?_⟩
      cases hr : e.response with
      | none => exact Or.inl rfl
      | some resp =>
          right
          refine ⟨resp, rfl, ?_⟩
          simp [isFailedEntry, hr] at hp
          exact_mod_cast hp
    · rintro ⟨hmem, hp⟩
      refine ⟨hmem, ?_⟩
      rcases hp with hnone | ⟨resp, hsome, hge⟩
      · simp [isFailedEntry, hnone]
      · simp [isFailedEntry, hsome]
        exact_mod_cast hge

/-- Witness for `getNetworkRequests_failed_exact`: a pending entry is
returned by the failed filter and satisfies the claim's criterion. -/
theorem getNetworkRequests_failed_exact_witness :
    SessionManager.getNetworkRequests { failed := some true } [ceEntry1] =
      Except.ok ([ceEntry1].filter isFailedEntry)
    ∧ (ceEntry1 ∈ [ceEntry1].filter isFailedEntry ↔
        ceEntry1 ∈ [ceEntry1] ∧
          (ceEntry1.response = none ∨
            ∃ resp, ceEntry1.response = some resp ∧ resp.status ≥ 400))
    ∧ [ceEntry1].filter isFailedEntry = [ceEntry1] :=
  ⟨(getNetworkRequests_failed_exact [ceEntry1]).1,
   (getNetworkRequests_failed_exact [ceEntry1]).2 ceEntry1,
   by decide⟩

/-- **C3, counterexample.**  The copy is shallow: after the caller mutates
an entry *object* obtained from a read (`writeObject` on the shared
reference), a subsequent read returns the mutated entry — the internal
history is changed through the alias, contradicting the claim's "including
mutation of the entry objects it contains". -/
theorem shallow_copy_counterexample :
    resolveArray (readHistory (fun _ => true) aliasHeap0).1
        (readHistory (fun _ => true) aliasHeap0).2 = [aliasEntry0]
    ∧ resolveArray
        (readHistory (fun _ => true)
          (writeObject (readHistory (fun _ => true) aliasHeap0).1 0 aliasEntry1)).1
        (readHistory (fun _ => true)
          (writeObject (readHistory (fun _ => true) aliasHeap0).1 0 aliasEntry1)).2 =
      [aliasEntry1]
    ∧ aliasEntry1 ≠ aliasEntry0 := by
  decide

/-- **C3 (amended).**  The history reads return a *fresh array of shared
entry references*: the returned array is a different array from the internal
history, and any mutation of the returned array itself (extensionally, any
replacement of its contents) changes neither the internal history array, nor
the entries it resolves to, nor the result of a subsequent read.  (Entry
*objects* are shared, which is the counterexample above.) -/
theorem history_read_is_fresh_array {α : Type} (pred : α → Bool) (h : RefHeap α)
    (hne : 0 < h.arrays.length) (l : List Nat) :
    (readHistory pred h).2 ≠ historyAddr
    ∧ readArray (writeArray (readHistory pred h).1 (readHistory pred h).2 l) historyAddr =
        readArray h historyAddr
    ∧ resolveArray (writeArray (readHistory pred h).1 (readHistory pred h).2 l) historyAddr =
        resolveArray h historyAddr
    ∧ resolveArray
        (readHistory pred (writeArray (readHistory pred h).1 (readHistory pred h).2 l)).1
        (readHistory pred (writeArray (readHistory pred h).1 (readHistory pred h).2 l)).2 =
      resolveArray (readHistory pred h).1 (readHistory pred h).2 := by
  have hz : h.arrays.length ≠ 0 := Nat.pos_iff_ne_zero.mp hne
  have harr : ∀ l' : List Nat,
      readArray (writeArray (readHistory pred h).1 (readHistory pred h).2 l') historyAddr =
        readArray h historyAddr := by
    intro l'
    simp only [readHistory, writeArray, readArray, historyAddr]
    rw [List.getElem?_set_ne hz, List.getElem?_append_left hne]
  refine ⟨fun hcontra => hz hcontra, harr l, ?_, ?_⟩
  · simp only [resolveArray]
    rw [harr l]
    rfl
  · simp only [readHistory, resolveArray, readArray, readObject, writeArray, historyAddr]
    rw [List.getElem?_concat_length, List.getElem?_concat_length]
    simp only [Option.getD_some]
    rw [List.getElem?_set_ne hz, List.getElem?_append_left hne]
    rfl

/-- Witness for `history_read_is_fresh_array`, at the one-entry heap with a
trivial filter and the caller overwriting the returned array with `[5]`. -/
theorem history_read_is_fresh_array_witness :
    0 < aliasHeap0.arrays.length
    ∧ ((readHistory (fun _ => true) aliasHeap0).2 ≠ historyAddr
    ∧ readArray (writeArray (readHistory (fun _ => true) aliasHeap0).1
          (readHistory (fun _ => true) aliasHeap0).2 [5]) historyAddr =
        readArray aliasHeap0 historyAddr
    ∧ resolveArray (writeArray (readHistory (fun _ => true) aliasHeap0).1
          (readHistory (fun _ => true) aliasHeap0).2 [5]) historyAddr =
        resolveArray aliasHeap0 historyAddr
    ∧ resolveArray
        (readHistory (fun _ => true) (writeArray (readHistory (fun _ => true) aliasHeap0).1
          (readHistory (fun _ => true) aliasHeap0).2 [5])).1
        (readHistory (fun _ => true) (writeArray (readHistory (fun _ => true) aliasHeap0).1
          (readHistory (fun _ => true) aliasHeap0).2 [5])).2 =
      resolveArray (readHistory (fun _ => true) aliasHeap0).1
        (readHistory (fun _ => true) aliasHeap0).2) :=
  ⟨by decide, history_read_is_fresh_array (fun _ => true) aliasHeap0 (by decide) [5]⟩

/-- **C10.**  From a pre-creation state, `ensureBrowser` creates the
browser/context/page chain, and a second call returns the very same page and
state (no new handle is allocated, so nothing is launched); `close()` puts
the manager back with all three handles absent; and an `ensureBrowser` call
after the close creates a fresh chain: all three handles exist again and
none of them (nor the returned page) is the one from the first chain. -/
theorem ensureBrowser_idempotent_and_close_resets (s : SessionManagerState)
    (h : s.browser = none) :
    ensureBrowser (ensureBrowser s).2 = ensureBrowser s
    ∧ (closeSession (ensureBrowser s).2).browser = none
    ∧ (closeSession (ensureBrowser s).2).context = none
    ∧ (closeSession (ensureBrowser s).2).page = none
    ∧ (ensureBrowser (closeSession (ensureBrowser s).2)).2.browser.isSome
    ∧ (ensureBrowser (closeSession (ensureBrowser s).2)).2.context.isSome
    ∧ (ensureBrowser (closeSession (ensureBrowser s).2)).2.page.isSome
    ∧ (ensureBrowser (closeSession (ensureBrowser s).2)).2.browser ≠ (ensureBrowser s).2.browser
    ∧ (ensureBrowser (closeSession (ensureBrowser s).2)).2.context ≠ (ensureBrowser s).2.context
    ∧ (ensureBrowser (closeSession (ensureBrowser s).2)).2.page ≠ (ensureBrowser s).2.page
    ∧ (ensureBrowser (closeSession (ensureBrowser s).2)).1 ≠ (ensureBrowser s).1 := by
  simp [ensureBrowser, closeSession, h]

/-- Witness for `ensureBrowser_idempotent_and_close_resets`, from the
freshly constructed manager state. -/
theorem ensureBrowser_idempotent_and_close_resets_witness :
    ({} : SessionManagerState).browser = none
    ∧ (ensureBrowser (ensureBrowser {}).2 = ensureBrowser {}
    ∧ (closeSession (ensureBrowser {}).2).browser = none
    ∧ (closeSession (ensureBrowser {}).2).context = none
    ∧ (closeSession (ensureBrowser {}).2).page = none
    ∧ (ensureBrowser (closeSession (ensureBrowser {}).2)).2.browser.isSome
    ∧ (ensureBrowser (closeSession (ensureBrowser {}).2)).2.context.isSome
    ∧ (ensureBrowser (closeSession (ensureBrowser {}).2)).2.page.isSome
    ∧ (ensureBrowser (closeSession (ensureBrowser {}).2)).2.browser ≠ (ensureBrowser {}).2.browser
    ∧ (ensureBrowser (closeSession (ensureBrowser {}).2)).2.context ≠ (ensureBrowser {}).2.context
    ∧ (ensureBrowser (closeSession (ensureBrowser {}).2)).2.page ≠ (ensureBrowser {}).2.page
    ∧ (ensureBrowser (closeSession (ensureBrowser {}).2)).1 ≠ (ensureBrowser {}).1) :=
  ⟨rfl, ensureBrowser_idempotent_and_close_resets {} rfl⟩

/-- **C8.**  Visual diff of a stored screenshot against a byte-identical
stored copy (both names resolving to the same buffer, decodable to a
non-empty image) reports 0 differing pixels, a 0% difference, and PASS; and
whenever the two decoded images' pixel dimensions differ, the result is the
dimension-mismatch failure carrying both dimensions, whatever the pixel data
of either image — no pixel comparison takes place. -/
theorem visualDiff_identical_and_mismatch :
    (∀ (decode : List Nat → Except String RawImage)
       (store : String → Option (List Nat)) (b c : String) (buf : List Nat)
       (img : RawImage) (t : ℚ),
       store b = some buf → store c = some buf → decode buf = .ok img →
       0 < img.width * img.height →
       visualDiff decode store b c t = .compared 0 (some 0) true)
    ∧ (∀ (decode : List Nat → Except String RawImage)
         (store : String → Option (List Nat)) (b c : String) (buf1 buf2 : List Nat)
         (img1 img2 : RawImage) (t : ℚ),
         store b = some buf1 → store c = some buf2 →
         decode buf1 = .ok img1 → decode buf2 = .ok img2 →
         (img1.width ≠ img2.width ∨ img1.height ≠ img2.height) →
         visualDiff decode store b c t =
           .dimensionMismatch img1.width img1.height img2.width img2.height) := by
  constructor
  · intro decode store b c buf img t hb hc hdec hpos
    simp only [visualDiff, hb, hc, hdec]
    rw [if_neg (by simp)]
    simp [pixelmatchCount, Nat.pos_iff_ne_zero.mp hpos]
  · intro decode store b c buf1 buf2 img1 img2 t hb hc hd1 hd2 hdim
    simp only [visualDiff, hb, hc, hd1, hd2]
    rw [if_pos hdim]

/-- Witness for `visualDiff_identical_and_mismatch`: the sample store holds
the same 1x1 buffer under "base" and "copy" and a 2x1 buffer under "wide". -/
theorem visualDiff_identical_and_mismatch_witness :
    sampleScreenshotStore "base" = some [1, 1, 7, 7, 7, 255]
    ∧ sampleScreenshotStore "copy" = some [1, 1, 7, 7, 7, 255]
    ∧ sampleDecode [1, 1, 7, 7, 7, 255] = .ok { width := 1, height := 1, data := [7, 7, 7, 255] }
    ∧ 0 < (1 : Nat) * 1
    ∧ visualDiff sampleDecode sampleScreenshotStore "base" "copy" (1 / 10) =
        .compared 0 (some 0) true
    ∧ sampleScreenshotStore "wide" = some [2, 1, 7, 7, 7, 255, 9, 9, 9, 255]
    ∧ sampleDecode [2, 1, 7, 7, 7, 255, 9, 9, 9, 255] =
        .ok { width := 2, height := 1, data := [7, 7, 7, 255, 9, 9, 9, 255] }
    ∧ ((1 : Nat) ≠ 2 ∨ (1 : Nat) ≠ 1)
    ∧ visualDiff sampleDecode sampleScreenshotStore "base" "wide" (1 / 10) =
        .dimensionMismatch 1 1 2 1 := by
  refine ⟨rfl, rfl, rfl, by decide, ?_, rfl, rfl, Or.inl (by decide), ?_⟩
  · exact visualDiff_identical_and_mismatch.1 sampleDecode sampleScreenshotStore
      "base" "copy" [1, 1, 7, 7, 7, 255] { width := 1, height := 1, data := [7, 7, 7, 255] }
      (1 / 10) rfl rfl rfl (by decide)
  · exact visualDiff_identical_and_mismatch.2 sampleDecode sampleScreenshotStore
      "base" "wide" [1, 1, 7, 7, 7, 255] [2, 1, 7, 7, 7, 255, 9, 9, 9, 255]
      { width := 1, height := 1, data := [7, 7, 7, 255] }
      { width := 2, height := 1, data := [7, 7, 7, 255, 9, 9, 9, 255] }
      (1 / 10) rfl rfl rfl rfl (Or.inl (by decide))

/-- Membership in a JS `Set` built from a list is membership in the list. -/
theorem jsSetOfList_contains (l : List String) (x : String) :
    (jsSetOfList l).contains x = l.contains x := by
  suffices hgen : ∀ acc : List String,
      (l.foldl (fun acc y => if acc.contains y then acc else acc ++ [y]) acc).contains x
        = (acc.contains x || l.contains x) by
    simpa [jsSetOfList] using hgen []
  induction l with
  | nil => intro acc; simp
  | cons y l ih =>
      intro acc
      simp only [List.foldl_cons]
      by_cases hy : acc.contains y = true
      · rw [if_pos hy, ih]
        by_cases hxy : x = y
        · subst hxy; simp [List.mem_of_elem_eq_true hy]
        · simp [List.contains_cons, hxy]
      · rw [if_neg hy, ih]
        by_cases hxy : x = y
        · subst hxy; simp [hy, List.contains_cons]
        · simp [List.contains_cons, hxy]

/-- **C9, counterexample.**  A 101-character changed line: the claim says
`added` holds the trimmed non-empty lines of current absent from baseline's
trimmed-line set — here the full 101-character line — but `domDiff` reports
the line truncated to its first 100 characters. -/
theorem domDiff_truncation_counterexample :
    domDiff longLineStore "baseline" "current" = .diff [longLine100] ["x"]
    ∧ (jsSplitLines longLine).filterMap (fun l =>
        let trimmed := jsTrim l
        if trimmed ≠ "" ∧ ¬ ((jsSplitLines "x").map jsTrim).contains trimmed then some trimmed
        else none) = [longLine]
    ∧ longLine100 ≠ longLine := by
  decide

/-- **C9 (amended).**  For every pair of resolvable DOM-snapshot names: if
the two payloads are textually identical the diff reports PASS; otherwise
`added` is the trimmed non-empty lines of current absent — by exact string
membership, not position — from baseline's trimmed-line set, *each truncated
to its first 100 characters*, and `removed` is the symmetric case; hence a
line that merely moved produces no add or remove, and the claim's concrete
example yields removed = [`<div>b</div>`], added = [`<div>c</div>`]. -/
theorem domDiff_exact (store : String → Option String) (bn cn : String)
    (b c : String) (hb : store bn = some b) (hc : store cn = some c) :
    (b = c → domDiff store bn cn = .pass)
    ∧ (b ≠ c → domDiff store bn cn = .diff (specAdded b c) (specRemoved b c))
    ∧ (b ≠ c →
        (∀ t ∈ (jsSplitLines c).map jsTrim, t ∈ (jsSplitLines b).map jsTrim) →
        (∀ t ∈ (jsSplitLines b).map jsTrim, t ∈ (jsSplitLines c).map jsTrim) →
        domDiff store bn cn = .diff [] [])
    ∧ domDiff exampleDomStore "baseline" "current" =
        .diff ["<div>c</div>"] ["<div>b</div>"] := by
  have hdiff : b ≠ c → domDiff store bn cn = .diff (specAdded b c) (specRemoved b c) := by
    intro hne
    simp only [domDiff, hb, hc, if_neg hne, specAdded, specRemoved, jsSetOfList_contains]
  refine ⟨?_, hdiff, ?_, by decide⟩
  · intro heq
    simp only [domDiff, hb, hc, if_pos heq]
  · intro hne hcb hbc
    rw [hdiff hne]
    have hadd : specAdded b c = [] := by
      rw [specAdded, List.filterMap_eq_nil_iff]
      intro l hl
      by_cases ht : jsTrim l = ""
      · simp [ht]
      · have hmem : jsTrim l ∈ (jsSplitLines b).map jsTrim :=
          hcb _ (List.mem_map_of_mem jsTrim hl)
        simp [ht]
        exact List.mem_map.mp hmem
    have hrem : specRemoved b c = [] := by
      rw [specRemoved, List.filterMap_eq_nil_iff]
      intro l hl
      by_cases ht : jsTrim l = ""
      · simp [ht]
      · have hmem : jsTrim l ∈ (jsSplitLines c).map jsTrim :=
          hbc _ (List.mem_map_of_mem jsTrim hl)
        simp [ht]
        exact List.mem_map.mp hmem
    rw [hadd, hrem]

/-- Witness for `domDiff_exact`, at the claim's own example snapshots. -/
theorem domDiff_exact_witness :
    exampleDomStore "baseline" = some "<div>a</div>\n<div>b</div>"
    ∧ exampleDomStore "current" = some "<div>a</div>\n<div>c</div>"
    ∧ ("<div>a</div>\n<div>b</div>" : String) ≠ "<div>a</div>\n<div>c</div>"
    ∧ domDiff exampleDomStore "baseline" "current" =
        .diff (specAdded "<div>a</div>\n<div>b</div>" "<div>a</div>\n<div>c</div>")
          (specRemoved "<div>a</div>\n<div>b</div>" "<div>a</div>\n<div>c</div>") :=
  ⟨rfl, rfl, by decide,
   (domDiff_exact exampleDomStore "baseline" "current" _ _ rfl rfl).2.1 (by decide)⟩
